import Mathlib

/-!
Verification of `helpers/multiaspect/image.py` (class `MultiaspectImage`).

Modelling conventions:
* Python `float` values are modelled as exact rationals (`ℚ`): every
  arithmetic operation of the source is mirrored by the corresponding exact
  rational operation.  Python `int` values are modelled as `ℤ`.
* Python `round` is round-half-to-even (banker's rounding); it is modelled by
  `pyRound` below.  Python `int(x)` truncates towards zero; it is modelled by
  `pyInt`.  Python `round(x, n)` at `n` decimal digits is `pyRoundDec`.
* `math.sqrt` appears only under `int(...)` or under `round(... / multiple)`.
  Both compose with the (exact, real-valued) square root into integer-valued
  functions that are definable by exact rational comparisons against squares:
  `⌊√r⌋ = Nat.sqrt ⌊r⌋` for `r ≥ 0`, and `round(√r)` is decided by comparing
  `4*r` with `(2*⌊√r⌋+1)^2`.  No real-number arithmetic is needed.
* Code that can raise a Python exception (`ZeroDivisionError` on division by
  zero, `ValueError` from `math.sqrt` on a negative argument) is modelled with
  `Option`: `none` is "the call raises".
* The configuration read from `StateTracker.get_args()` is passed explicitly:
  `multiple` is `aspect_bucket_alignment` (spec: a positive integer) and
  `to_round` is the effective aspect-ratio rounding precision
  (`aspect_bucket_rounding`, defaulting to the `rounding` parameter).
* The process-wide resolution cache of `StateTracker` is passed explicitly as
  a value of type `ResolutionCache` and the updated cache is returned.
-/

namespace MultiaspectImage

/-- Python `round(q)` for a rational `q`: nearest integer, ties to even. -/
def pyRound (q : ℚ) : ℤ :=
  if q - ⌊q⌋ < 1/2 then ⌊q⌋
  else if q - ⌊q⌋ = 1/2 then (if 2 ∣ ⌊q⌋ then ⌊q⌋ else ⌊q⌋ + 1)
  else ⌊q⌋ + 1

/-- Python `int(q)` for a rational `q`: truncation towards zero. -/
def pyInt (q : ℚ) : ℤ :=
  if 0 ≤ q then ⌊q⌋ else ⌈q⌉

/-- Python `round(q, p)` at `p` decimal digits (ties to even). -/
def pyRoundDec (p : ℕ) (q : ℚ) : ℚ :=
  (pyRound (q * 10 ^ p) : ℚ) / 10 ^ p

/-- Python `int(math.sqrt(r))` for `0 ≤ r`, i.e. `⌊√r⌋`, computed exactly:
`⌊√r⌋ = Nat.sqrt ⌊r⌋` for every nonnegative real `r`. -/
def intSqrt (r : ℚ) : ℤ :=
  (Nat.sqrt ⌊r⌋.toNat : ℤ)

/-- Python `round(math.sqrt(r))` for `0 ≤ r`, computed exactly.  With
`n = ⌊√r⌋`, the value `√r` lies in `[n, n+1)`; it rounds down exactly when
`√r < n + 1/2`, i.e. `4*r < (2*n+1)^2`, ties (`4*r = (2*n+1)^2`) go to the
even endpoint. -/
def pyRoundSqrt (r : ℚ) : ℤ :=
  let n := intSqrt r
  if 4 * r < ((2 * n + 1 : ℤ) : ℚ) ^ 2 then n
  else if 4 * r = ((2 * n + 1 : ℤ) : ℚ) ^ 2 then (if 2 ∣ n then n else n + 1)
  else n + 1

/-- Model of `MultiaspectImage._round_to_nearest_multiple` (image.py lines 25-30):
`rounded = round(value / multiple) * multiple; return max(rounded, multiple)`.
The alignment unit `multiple` (`aspect_bucket_alignment`) is an explicit
parameter. -/
def round_to_nearest_multiple (multiple : ℤ) (value : ℚ) : ℤ :=
  max (pyRound (value / (multiple : ℚ)) * multiple) multiple

/-- Model of `_round_to_nearest_multiple` applied to the square root of `r ≥ 0`
(as in `round_to_nearest_multiple(edge * sqrt(a))` with
`r = edge^2 * a`): for `0 < multiple`, `√r / multiple = √(r / multiple^2)`,
so `round(√r / multiple) = pyRoundSqrt (r / multiple^2)`. -/
def round_to_nearest_multiple_sqrt (multiple : ℤ) (r : ℚ) : ℤ :=
  max (pyRoundSqrt (r / ((multiple : ℚ)) ^ 2) * multiple) multiple

/-- Model of `MultiaspectImage.is_image_too_large` (image.py lines 32-55).  `none`
models the `ValueError` raised on an unknown `resolution_type`. -/
def is_image_too_large (image_size : ℤ × ℤ) (resolution : ℚ)
    (resolution_type : String) : Option Bool :=
  if resolution_type = "pixel" then
    some (decide (resolution < (image_size.1 : ℚ)) ||
          decide (resolution < (image_size.2 : ℚ)))
  else if resolution_type = "area" then
    some (decide (resolution * 1000000 < ((image_size.1 * image_size.2 : ℤ) : ℚ)))
  else
    none

/-- Model of `MultiaspectImage.calculate_image_aspect_ratio` (image.py lines 237-263),
restricted to the `(W, H)` tuple input case used by the sizers:
`round(width / height, to_round)`.  `to_round` is the effective precision
(`aspect_bucket_rounding` when set, else the `rounding` parameter).  `none`
models the `ZeroDivisionError` raised when `height == 0`. -/
def calculate_image_aspect_ratio (to_round : ℕ) (image : ℤ × ℤ) : Option ℚ :=
  if image.2 = 0 then none
  else some (pyRoundDec to_round ((image.1 : ℚ) / (image.2 : ℚ)))

/-- Modelled from the spec: the `StateTracker` resolution cache (not under
`src/`; only its callers are).  "A process-wide mapping keyed by
(ResolutionSpec value, AspectRatio) → Size"; "read before any area-based
computation, written only if absent".  Modelled as an association list from
`(dataloader_resolution, aspect)` keys to sizes. -/
abbrev ResolutionCache : Type :=
  List ((ℚ × ℚ) × (ℤ × ℤ))

/-- Modelled from the spec: `StateTracker.get_resolution_by_aspect` — look up
the canonical size stored for `(dataloader_resolution, aspect)`. -/
def get_resolution_by_aspect (cache : ResolutionCache)
    (dataloader_resolution aspect : ℚ) : Option (ℤ × ℤ) :=
  (cache.find? fun e => e.1 = (dataloader_resolution, aspect)).map (·.2)

/-- Modelled from the spec: `StateTracker.set_resolution_by_aspect` — store
`resolution` under `(dataloader_resolution, aspect)`. -/
def set_resolution_by_aspect (cache : ResolutionCache)
    (dataloader_resolution aspect : ℚ) (resolution : ℤ × ℤ) :
    ResolutionCache :=
  ((dataloader_resolution, aspect), resolution) :: cache

/-- Model of `(W_initial, H_initial)` of `calculate_new_size_by_pixel_edge` (image.py
lines 66-74): portrait (`W_original < H_original`): `W_initial = resolution;
H_initial = int(W_initial / aspect_ratio)`; landscape: `H_initial =
resolution; W_initial = int(H_initial * aspect_ratio)`. -/
def edge_WH_initial (aspect_ratio : ℚ) (resolution : ℤ)
    (original_size : ℤ × ℤ) : ℤ × ℤ :=
  if original_size.1 < original_size.2 then
    (resolution, pyInt ((resolution : ℚ) / aspect_ratio))
  else
    (pyInt ((resolution : ℚ) * aspect_ratio), resolution)

/-- The intermediary-size adjustment of `calculate_new_size_by_pixel_edge`
(image.py lines 85-97): if rounding pushed either adjusted dimension above
the initial one, add the bigger of the two differences to both initial
dimensions. -/
def edge_WH_final (WH_initial : ℤ × ℤ) (W_adjusted H_adjusted : ℤ) : ℤ × ℤ :=
  if WH_initial.1 < W_adjusted ∨ WH_initial.2 < H_adjusted then
    let bigger_difference :=
      max (W_adjusted - WH_initial.1) (H_adjusted - WH_initial.2)
    (WH_initial.1 + bigger_difference, WH_initial.2 + bigger_difference)
  else WH_initial

/-- Model of `MultiaspectImage.calculate_new_size_by_pixel_edge` (image.py lines
57-103).  Returns `(target, intermediary, adjusted_aspect_ratio)`.  `none`
models the `ZeroDivisionError` of `int(W_initial / aspect_ratio)` when
`aspect_ratio == 0.0` in the portrait branch (and the unreachable-for-valid-
config `ZeroDivisionError` inside `calculate_image_aspect_ratio`).  The
runtime type checks on `aspect_ratio` and `resolution` are enforced by the
Lean types. -/
def calculate_new_size_by_pixel_edge (multiple : ℤ) (to_round : ℕ)
    (aspect_ratio : ℚ) (resolution : ℤ) (original_size : ℤ × ℤ) :
    Option ((ℤ × ℤ) × (ℤ × ℤ) × ℚ) :=
  -- W_original, H_original = original_size
  if original_size.1 < original_size.2 ∧ aspect_ratio = 0 then none
  else
    let WH_initial := edge_WH_initial aspect_ratio resolution original_size
    let W_adjusted := round_to_nearest_multiple multiple (WH_initial.1 : ℚ)
    let H_adjusted := round_to_nearest_multiple multiple (WH_initial.2 : ℚ)
    let WH_final := edge_WH_final WH_initial W_adjusted H_adjusted
    match calculate_image_aspect_ratio to_round (W_adjusted, H_adjusted) with
    | none => none
    | some adjusted_aspect_ratio =>
      some ((W_adjusted, H_adjusted), WH_final, adjusted_aspect_ratio)

/-- Model of `target_pixel_edge` of `calculate_new_size_by_pixel_area` (image.py
lines 111-116). -/
def area_target_pixel_edge (multiple : ℤ) (megapixels : ℚ) : ℤ :=
  -- target_pixel_area = megapixels * 1e6 (line 111)
  -- target_pixel_edge = round_to_nearest_multiple(int(sqrt(target_pixel_area))) (line 114)
  round_to_nearest_multiple multiple ((intSqrt (megapixels * 1000000) : ℤ) : ℚ)

/-- Model of `W_target` of `calculate_new_size_by_pixel_area` (image.py line 134):
`round_to_nearest_multiple(target_pixel_edge * sqrt(aspect_ratio))`, using
`edge * √a = √(edge² · a)` for `edge ≥ 0`. -/
def area_W_target (multiple : ℤ) (aspect_ratio megapixels : ℚ) : ℤ :=
  round_to_nearest_multiple_sqrt multiple
    ((area_target_pixel_edge multiple megapixels : ℚ) ^ 2 * aspect_ratio)

/-- Model of `H_target` of `calculate_new_size_by_pixel_area` (image.py line 137):
`round_to_nearest_multiple(target_pixel_edge / sqrt(aspect_ratio))`, using
`edge / √a = √(edge² / a)` for `edge ≥ 0`, `a > 0`. -/
def area_H_target (multiple : ℤ) (aspect_ratio megapixels : ℚ) : ℤ :=
  round_to_nearest_multiple_sqrt multiple
    ((area_target_pixel_edge multiple megapixels : ℚ) ^ 2 / aspect_ratio)

/-- Model of `(W_intermediary, H_intermediary)` of `calculate_new_size_by_pixel_area`
(image.py lines 151-156), computed from the pre-cache-override targets:
portrait: `W_intermediary = W_target; H_intermediary = int(W_intermediary /
aspect_ratio)`; landscape: `H_intermediary = H_target; W_intermediary =
int(H_intermediary * aspect_ratio)`. -/
def area_WH_intermediary (multiple : ℤ) (aspect_ratio megapixels : ℚ) :
    ℤ × ℤ :=
  let W_target := area_W_target multiple aspect_ratio megapixels
  let H_target := area_H_target multiple aspect_ratio megapixels
  if W_target < H_target then
    (W_target, pyInt ((W_target : ℚ) / aspect_ratio))
  else
    (pyInt ((H_target : ℚ) * aspect_ratio), H_target)

/-- Cache consultation, invariant repair and cache write-back of
`calculate_new_size_by_pixel_area` (image.py lines 158-211), given the
rounded aspect ratio `adjusted_aspect_ratio` of the computed
`(W_target, H_target)`.  Returns the result triple and the updated cache. -/
def area_cache_step (multiple : ℤ) (cache : ResolutionCache)
    (aspect_ratio megapixels adjusted_aspect_ratio : ℚ) :
    ((ℤ × ℤ) × (ℤ × ℤ) × ℚ) × ResolutionCache :=
  let W_target := area_W_target multiple aspect_ratio megapixels
  let H_target := area_H_target multiple aspect_ratio megapixels
  let WH_intermediary := area_WH_intermediary multiple aspect_ratio megapixels
  -- previously_stored_resolution = get_resolution_by_aspect(megapixels, adjusted_aspect_ratio)
  let previously_stored_resolution :=
    get_resolution_by_aspect cache megapixels adjusted_aspect_ratio
  -- if previously_stored_resolution: W_target, H_target = previously_stored_resolution
  let target_resolution :=
    previously_stored_resolution.getD (W_target, H_target)
  -- if W_target > W_intermediary or H_target > H_intermediary: repair (lines 175-188)
  let WH_final : ℤ × ℤ :=
    if WH_intermediary.1 < target_resolution.1 ∨
       WH_intermediary.2 < target_resolution.2 then
      if WH_intermediary.1 < target_resolution.1 then
        -- W_diff = W_target - W_intermediary; H_diff = int(W_diff / aspect_ratio)
        let W_diff := target_resolution.1 - WH_intermediary.1
        (WH_intermediary.1 + W_diff,
         WH_intermediary.2 + pyInt ((W_diff : ℚ) / aspect_ratio))
      else
        -- H_diff = H_target - H_intermediary; W_diff = int(H_diff * aspect_ratio)
        let H_diff := target_resolution.2 - WH_intermediary.2
        (WH_intermediary.1 + pyInt ((H_diff : ℚ) * aspect_ratio),
         WH_intermediary.2 + H_diff)
    else WH_intermediary
  -- if not previously_stored_resolution: set_resolution_by_aspect(...) (lines 201-209)
  let cache' :=
    if previously_stored_resolution.isSome then cache
    else set_resolution_by_aspect cache megapixels adjusted_aspect_ratio
      target_resolution
  ((target_resolution, WH_final, adjusted_aspect_ratio), cache')

/-- Model of `MultiaspectImage.calculate_new_size_by_pixel_area` (image.py lines
105-211).  Returns `((target, intermediary, adjusted_aspect_ratio), cache')`
where `cache'` is the resolution cache after the call.  `none` models the
Python exceptions: `math.sqrt` raises `ValueError` when `megapixels < 0`
(line 115) or when `aspect_ratio < 0` (line 135), and line 138's
`target_pixel_edge / sqrt(aspect_ratio)` raises `ZeroDivisionError` when
`aspect_ratio == 0.0`; the `sqrt`-composed roundings are computed exactly via
`round_to_nearest_multiple_sqrt` (`edge * √a = √(edge² · a)`,
`edge / √a = √(edge² / a)` for `edge ≥ 0`, `a > 0`). -/
def calculate_new_size_by_pixel_area (multiple : ℤ) (to_round : ℕ)
    (cache : ResolutionCache) (aspect_ratio megapixels : ℚ)
    (original_size : ℤ × ℤ) :
    Option (((ℤ × ℤ) × (ℤ × ℤ) × ℚ) × ResolutionCache) :=
  if megapixels < 0 then none
  else
    -- W_initial, H_initial = original_size (line 121)
    if aspect_ratio = 1 then
      -- return (edge, edge), (W_initial, H_initial), aspect_ratio (lines 122-131)
      some (((area_target_pixel_edge multiple megapixels,
              area_target_pixel_edge multiple megapixels), original_size,
             aspect_ratio), cache)
    else if aspect_ratio < 0 ∨ aspect_ratio = 0 then none
    else
      -- adjusted_aspect_ratio = calculate_image_aspect_ratio((W_target, H_target)) (line 159)
      match calculate_image_aspect_ratio to_round
        (area_W_target multiple aspect_ratio megapixels,
         area_H_target multiple aspect_ratio megapixels) with
      | none => none
      | some adjusted_aspect_ratio =>
        some (area_cache_step multiple cache aspect_ratio megapixels
          adjusted_aspect_ratio)

/-- Model of `MultiaspectImage.adjust_resolution_to_bucket_interval` (image.py
lines 213-235). -/
def adjust_resolution_to_bucket_interval (initial_resolution : ℤ × ℤ)
    (target_resolution : ℤ × ℤ) : ℤ × ℤ :=
  let W_diff := target_resolution.1 - initial_resolution.1
  let H_diff := target_resolution.2 - initial_resolution.2
  if 0 < W_diff ∧ (H_diff < W_diff ∨ W_diff = H_diff) then
    (initial_resolution.1 + W_diff, initial_resolution.2 + W_diff)
  else if 0 < H_diff ∧ W_diff < H_diff then
    (initial_resolution.1 + H_diff, initial_resolution.2 + H_diff)
  else
    (initial_resolution.1, initial_resolution.2)

/-- A size both of whose dimensions are positive exact multiples of the
alignment unit. -/
def sizeAligned (multiple : ℤ) (s : ℤ × ℤ) : Prop :=
  (multiple ∣ s.1 ∧ 0 < s.1) ∧ (multiple ∣ s.2 ∧ 0 < s.2)

/-- Every size stored in the cache is aligned (holds for every cache built
by the area sizer itself). -/
def cacheAligned (multiple : ℤ) (cache : ResolutionCache) : Prop :=
  ∀ e ∈ cache, sizeAligned multiple e.2

/-! ### Supporting lemmas -/

lemma pyRound_nearest (q : ℚ) (j : ℤ) :
    |q - (pyRound q : ℚ)| ≤ |q - (j : ℚ)| := by
  have h0 : (0 : ℚ) ≤ |q - (j : ℚ)| := abs_nonneg _
  have h1 : q - (j : ℚ) ≤ |q - (j : ℚ)| := le_abs_self _
  have h2 : (j : ℚ) - q ≤ |q - (j : ℚ)| := by
    rw [abs_sub_comm]; exact le_abs_self _
  have hfl : (⌊q⌋ : ℚ) ≤ q := Int.floor_le q
  have hfu : q < ⌊q⌋ + 1 := Int.lt_floor_add_one q
  have hj : (j : ℚ) ≤ (⌊q⌋ : ℚ) ∨ (⌊q⌋ : ℚ) + 1 ≤ (j : ℚ) := by
    rcases le_or_lt j ⌊q⌋ with h | h
    · exact Or.inl (by exact_mod_cast h)
    · exact Or.inr (by exact_mod_cast h)
  unfold pyRound
  split_ifs with ha hb hc <;>
    rcases hj with hj | hj <;>
    · push_cast
      rw [abs_sub_le_iff]
      constructor <;> linarith

lemma floor_le_pyRound (q : ℚ) : ⌊q⌋ ≤ pyRound q := by
  unfold pyRound
  split_ifs <;> omega

lemma pyRound_le_half_of_nonpos (q : ℚ) (h : pyRound q ≤ 0) : q ≤ 1 / 2 := by
  by_contra hq
  push_neg at hq
  have hf0 : 0 ≤ ⌊q⌋ := Int.floor_nonneg.mpr (by linarith)
  rcases lt_or_eq_of_le hf0 with hf | hf
  · have := floor_le_pyRound q
    omega
  · unfold pyRound at h
    rw [← hf] at h
    split_ifs at h with h1 h2 h3
    · push_cast at h1; linarith
    · push_cast at h2; linarith
    · omega
    · omega

lemma pyInt_nonneg (q : ℚ) (h : 0 ≤ q) : 0 ≤ pyInt q := by
  unfold pyInt
  rw [if_pos h]
  exact Int.floor_nonneg.mpr h

lemma dvd_max_mul (u k : ℤ) : u ∣ max (k * u) u := by
  rcases le_total (k * u) u with h | h
  · rw [max_eq_right h]
  · rw [max_eq_left h]
    exact dvd_mul_left u k

lemma round_to_nearest_multiple_dvd (u : ℤ) (v : ℚ) :
    u ∣ round_to_nearest_multiple u v :=
  dvd_max_mul u _

lemma le_round_to_nearest_multiple (u : ℤ) (v : ℚ) :
    u ≤ round_to_nearest_multiple u v :=
  le_max_right _ _

lemma round_to_nearest_multiple_sqrt_dvd (u : ℤ) (r : ℚ) :
    u ∣ round_to_nearest_multiple_sqrt u r :=
  dvd_max_mul u _

lemma le_round_to_nearest_multiple_sqrt (u : ℤ) (r : ℚ) :
    u ≤ round_to_nearest_multiple_sqrt u r :=
  le_max_right _ _

/-! Evaluation lemmas: compute the rounding primitives on concrete rational
inputs (the kernel cannot reduce `ℚ` arithmetic, so concrete runs are
assembled from these characterizations via `norm_num`). -/

lemma pyRound_eval_down {q : ℚ} {n : ℤ} (h1 : (n : ℚ) ≤ q)
    (h2 : q < (n : ℚ) + 1 / 2) : pyRound q = n := by
  have hfl : ⌊q⌋ = n := Int.floor_eq_iff.mpr ⟨h1, by linarith⟩
  unfold pyRound
  rw [hfl, if_pos (by push_cast; linarith)]

lemma pyRound_eval_up {q : ℚ} {n : ℤ} (h1 : (n : ℚ) + 1 / 2 < q)
    (h2 : q < (n : ℚ) + 1) : pyRound q = n + 1 := by
  have hfl : ⌊q⌋ = n := Int.floor_eq_iff.mpr ⟨by linarith, h2⟩
  unfold pyRound
  rw [hfl, if_neg (by push_cast; linarith), if_neg (by push_cast; linarith)]

lemma pyRound_intCast (n : ℤ) : pyRound ((n : ℤ) : ℚ) = n :=
  pyRound_eval_down (le_refl _) (by norm_num)

lemma pyInt_eval {q : ℚ} {n : ℤ} (h0 : 0 ≤ q) (h1 : (n : ℚ) ≤ q)
    (h2 : q < (n : ℚ) + 1) : pyInt q = n := by
  unfold pyInt
  rw [if_pos h0]
  exact Int.floor_eq_iff.mpr ⟨h1, by push_cast; linarith⟩

lemma intSqrt_eval {r : ℚ} {m : ℕ} {n : ℤ} (hfl : ⌊r⌋ = (m : ℤ))
    (hsq : Nat.sqrt m = n.toNat) (hn : 0 ≤ n) : intSqrt r = n := by
  unfold intSqrt
  rw [hfl, Int.toNat_natCast, hsq]
  omega

lemma pyRoundSqrt_eval_down {r : ℚ} {n : ℤ} (hn : intSqrt r = n)
    (h : 4 * r < ((2 * n + 1 : ℤ) : ℚ) ^ 2) : pyRoundSqrt r = n := by
  unfold pyRoundSqrt
  rw [hn, if_pos h]

lemma pyRoundSqrt_eval_up {r : ℚ} {n : ℤ} (hn : intSqrt r = n)
    (h1 : ¬ 4 * r < ((2 * n + 1 : ℤ) : ℚ) ^ 2)
    (h2 : ¬ 4 * r = ((2 * n + 1 : ℤ) : ℚ) ^ 2) : pyRoundSqrt r = n + 1 := by
  unfold pyRoundSqrt
  rw [hn, if_neg h1, if_neg h2]

lemma round_to_nearest_multiple_eval {u : ℤ} {v : ℚ} {n s : ℤ}
    (h : pyRound (v / (u : ℚ)) = n) (hs : max (n * u) u = s) :
    round_to_nearest_multiple u v = s := by
  unfold round_to_nearest_multiple
  rw [h, hs]

lemma round_to_nearest_multiple_sqrt_eval {u : ℤ} {r : ℚ} {n s : ℤ}
    (h : pyRoundSqrt (r / (u : ℚ) ^ 2) = n) (hs : max (n * u) u = s) :
    round_to_nearest_multiple_sqrt u r = s := by
  unfold round_to_nearest_multiple_sqrt
  rw [h, hs]

lemma is_image_too_large_pixel (s : ℤ × ℤ) (r : ℚ) :
    is_image_too_large s r "pixel" =
      some (decide (r < (s.1 : ℚ)) || decide (r < (s.2 : ℚ))) := by
  rw [is_image_too_large, if_pos rfl]

lemma is_image_too_large_area (s : ℤ × ℤ) (r : ℚ) :
    is_image_too_large s r "area" =
      some (decide (r * 1000000 < ((s.1 * s.2 : ℤ) : ℚ))) := by
  rw [is_image_too_large, if_neg (by decide), if_pos rfl]

lemma get_set_resolution_by_aspect (cache : ResolutionCache) (m a : ℚ)
    (r : ℤ × ℤ) :
    get_resolution_by_aspect (set_resolution_by_aspect cache m a r) m a =
      some r := by
  simp [get_resolution_by_aspect, set_resolution_by_aspect, List.find?]

lemma edge_WH_final_ge (p : ℤ × ℤ) (Wa Ha : ℤ) :
    Wa ≤ (edge_WH_final p Wa Ha).1 ∧ Ha ≤ (edge_WH_final p Wa Ha).2 := by
  unfold edge_WH_final
  split_ifs with h
  · have h1 := le_max_left (Wa - p.1) (Ha - p.2)
    have h2 := le_max_right (Wa - p.1) (Ha - p.2)
    constructor <;> dsimp only <;> linarith
  · push_neg at h
    exact ⟨h.1, h.2⟩

lemma area_cache_step_miss_invariant (multiple : ℤ) (cache : ResolutionCache)
    (aspect_ratio megapixels adjusted : ℚ) (ha : 0 < aspect_ratio)
    (hmiss : get_resolution_by_aspect cache megapixels adjusted = none) :
    (area_cache_step multiple cache aspect_ratio megapixels adjusted).1.1.1 ≤
      (area_cache_step multiple cache aspect_ratio megapixels adjusted).1.2.1.1 ∧
    (area_cache_step multiple cache aspect_ratio megapixels adjusted).1.1.2 ≤
      (area_cache_step multiple cache aspect_ratio megapixels adjusted).1.2.1.2 := by
  simp only [area_cache_step, area_WH_intermediary, hmiss, Option.getD_none]
  set W := area_W_target multiple aspect_ratio megapixels with hW
  set H := area_H_target multiple aspect_ratio megapixels with hH
  rcases lt_or_le W H with hWH | hWH
  · -- portrait: the intermediary width equals the target width exactly
    rw [if_pos hWH]
    set J := pyInt ((W : ℚ) / aspect_ratio) with hJ
    dsimp only
    simp only [lt_self_iff_false, false_or, if_false]
    split_ifs with hJH
    · have hnn : 0 ≤ pyInt (((H - J : ℤ) : ℚ) * aspect_ratio) := by
        refine pyInt_nonneg _ (mul_nonneg ?_ (le_of_lt ha))
        exact_mod_cast Int.sub_nonneg.mpr (le_of_lt hJH)
      constructor <;> dsimp only <;> omega
    · exact ⟨le_refl W, by omega⟩
  · -- landscape: the intermediary height equals the target height exactly
    rw [if_neg (not_lt.mpr hWH)]
    set J := pyInt ((H : ℚ) * aspect_ratio) with hJ
    dsimp only
    simp only [lt_self_iff_false, or_false, if_false]
    split_ifs with hJW
    · have hnn : 0 ≤ pyInt (((W - J : ℤ) : ℚ) / aspect_ratio) := by
        refine pyInt_nonneg _ (div_nonneg ?_ (le_of_lt ha))
        exact_mod_cast Int.sub_nonneg.mpr (le_of_lt hJW)
      constructor <;> dsimp only <;> omega
    · exact ⟨by omega, le_refl H⟩

lemma area_cache_step_target (multiple : ℤ) (cache : ResolutionCache)
    (aspect_ratio megapixels adjusted : ℚ) :
    (area_cache_step multiple cache aspect_ratio megapixels adjusted).1.1 =
      (get_resolution_by_aspect cache megapixels adjusted).getD
        (area_W_target multiple aspect_ratio megapixels,
         area_H_target multiple aspect_ratio megapixels) :=
  rfl

lemma area_cache_step_cache (multiple : ℤ) (cache : ResolutionCache)
    (aspect_ratio megapixels adjusted : ℚ) :
    (area_cache_step multiple cache aspect_ratio megapixels adjusted).2 =
      if (get_resolution_by_aspect cache megapixels adjusted).isSome then
        cache
      else
        set_resolution_by_aspect cache megapixels adjusted
          ((get_resolution_by_aspect cache megapixels adjusted).getD
            (area_W_target multiple aspect_ratio megapixels,
             area_H_target multiple aspect_ratio megapixels)) :=
  rfl

lemma area_cache_step_idempotent (multiple : ℤ) (cache : ResolutionCache)
    (aspect_ratio megapixels adjusted : ℚ) :
    (area_cache_step multiple
        (area_cache_step multiple cache aspect_ratio megapixels adjusted).2
        aspect_ratio megapixels adjusted).1.1 =
      (area_cache_step multiple cache aspect_ratio megapixels adjusted).1.1 := by
  rcases hprev : get_resolution_by_aspect cache megapixels adjusted with _ | p
  · simp only [area_cache_step_target, area_cache_step_cache, hprev,
      Option.isSome_none, Option.getD_none, Bool.false_eq_true, if_false,
      get_set_resolution_by_aspect, Option.getD_some]
  · simp only [area_cache_step_target, area_cache_step_cache, hprev,
      Option.isSome_some, Option.getD_some, if_true]

lemma round_to_nearest_multiple_sizeAligned {u : ℤ} (hu : 0 < u)
    (v w : ℚ) :
    sizeAligned u (round_to_nearest_multiple u v,
      round_to_nearest_multiple u w) :=
  ⟨⟨round_to_nearest_multiple_dvd u v,
    lt_of_lt_of_le hu (le_round_to_nearest_multiple u v)⟩,
   ⟨round_to_nearest_multiple_dvd u w,
    lt_of_lt_of_le hu (le_round_to_nearest_multiple u w)⟩⟩

lemma round_to_nearest_multiple_sqrt_sizeAligned {u : ℤ} (hu : 0 < u)
    (r s : ℚ) :
    sizeAligned u (round_to_nearest_multiple_sqrt u r,
      round_to_nearest_multiple_sqrt u s) :=
  ⟨⟨round_to_nearest_multiple_sqrt_dvd u r,
    lt_of_lt_of_le hu (le_round_to_nearest_multiple_sqrt u r)⟩,
   ⟨round_to_nearest_multiple_sqrt_dvd u s,
    lt_of_lt_of_le hu (le_round_to_nearest_multiple_sqrt u s)⟩⟩

lemma area_cache_step_aligned (multiple : ℤ) (cache : ResolutionCache)
    (aspect_ratio megapixels adjusted : ℚ) (hu : 0 < multiple)
    (hca : cacheAligned multiple cache) :
    sizeAligned multiple
      (area_cache_step multiple cache aspect_ratio megapixels adjusted).1.1 ∧
    cacheAligned multiple
      (area_cache_step multiple cache aspect_ratio megapixels adjusted).2 := by
  rcases hprev : get_resolution_by_aspect cache megapixels adjusted with _ | p
  · constructor
    · rw [area_cache_step_target, hprev, Option.getD_none, area_W_target,
        area_H_target]
      exact round_to_nearest_multiple_sqrt_sizeAligned hu _ _
    · rw [area_cache_step_cache, hprev]
      simp only [Option.isSome_none, Bool.false_eq_true, if_false,
        Option.getD_none]
      intro e he
      rcases List.mem_cons.mp he with he | he
      · rw [he]
        rw [area_W_target, area_H_target]
        exact round_to_nearest_multiple_sqrt_sizeAligned hu _ _
      · exact hca e he
  · have hp : sizeAligned multiple p := by
      unfold get_resolution_by_aspect at hprev
      obtain ⟨en, hf, hv⟩ := Option.map_eq_some'.mp hprev
      have hmem := hca en (List.mem_of_find?_eq_some hf)
      rw [← hv]
      exact hmem
    constructor
    · rw [area_cache_step_target, hprev, Option.getD_some]
      exact hp
    · rw [area_cache_step_cache, hprev]
      simp only [Option.isSome_some, if_true]
      exact hca

/-! Concrete runs of the sizers, assembled from the evaluation lemmas
(alignment unit 64, rounding precision 2). -/

lemma area_target_pixel_edge_64_1 : area_target_pixel_edge 64 1 = 1024 := by
  have h1 : intSqrt ((1 : ℚ) * 1000000) = 1000 := by
    refine intSqrt_eval (m := 1000000) ?_ ?_ (by norm_num)
    · norm_num [Int.floor_eq_iff]
    · norm_num
      decide
  have h2 : pyRound (((1000 : ℤ) : ℚ) / ((64 : ℤ) : ℚ)) = 16 := by
    have h := pyRound_eval_up (q := ((1000 : ℤ) : ℚ) / ((64 : ℤ) : ℚ))
      (n := 15) (by push_cast; norm_num) (by push_cast; norm_num)
    rw [h]
    decide
  rw [area_target_pixel_edge, h1]
  exact round_to_nearest_multiple_eval h2 (by decide)

lemma area_W_target_64_4_1 : area_W_target 64 4 1 = 2048 := by
  have h1 : intSqrt ((((1024 : ℤ) : ℚ)) ^ 2 * 4 / ((64 : ℤ) : ℚ) ^ 2) = 32 := by
    refine intSqrt_eval (m := 1024) ?_ ?_ (by norm_num)
    · norm_num [Int.floor_eq_iff]
    · norm_num
      decide
  have h2 : pyRoundSqrt ((((1024 : ℤ) : ℚ)) ^ 2 * 4 / ((64 : ℤ) : ℚ) ^ 2) = 32 :=
    pyRoundSqrt_eval_down h1 (by push_cast; norm_num)
  rw [area_W_target, area_target_pixel_edge_64_1]
  exact round_to_nearest_multiple_sqrt_eval h2 (by decide)

lemma area_H_target_64_4_1 : area_H_target 64 4 1 = 512 := by
  have h1 : intSqrt ((((1024 : ℤ) : ℚ)) ^ 2 / 4 / ((64 : ℤ) : ℚ) ^ 2) = 8 := by
    refine intSqrt_eval (m := 64) ?_ ?_ (by norm_num)
    · norm_num [Int.floor_eq_iff]
    · norm_num
      decide
  have h2 : pyRoundSqrt ((((1024 : ℤ) : ℚ)) ^ 2 / 4 / ((64 : ℤ) : ℚ) ^ 2) = 8 :=
    pyRoundSqrt_eval_down h1 (by push_cast; norm_num)
  rw [area_H_target, area_target_pixel_edge_64_1]
  exact round_to_nearest_multiple_sqrt_eval h2 (by decide)

lemma area_WH_intermediary_64_4_1 : area_WH_intermediary 64 4 1 = (2048, 512) := by
  rw [area_WH_intermediary, area_W_target_64_4_1, area_H_target_64_4_1]
  have h1 : pyInt (((512 : ℤ) : ℚ) * 4) = 2048 := by
    refine pyInt_eval (by norm_num) (by norm_num) (by norm_num)
  rw [if_neg (by decide), h1]

lemma aspect_2048_512 : calculate_image_aspect_ratio 2 (2048, 512) = some 4 := by
  have h1 : ((2048 : ℤ) : ℚ) / ((512 : ℤ) : ℚ) * 10 ^ 2 = ((400 : ℤ) : ℚ) := by
    push_cast
    norm_num
  have h2 : pyRound (((400 : ℤ) : ℚ)) = 400 := pyRound_intCast 400
  rw [calculate_image_aspect_ratio, if_neg (by decide)]
  rw [pyRoundDec, h1, h2]
  norm_num

lemma get_resolution_by_aspect_nil (m a : ℚ) :
    get_resolution_by_aspect [] m a = none :=
  rfl

lemma round_to_nearest_multiple_64_1000 :
    round_to_nearest_multiple 64 (((1000 : ℤ)) : ℚ) = 1024 := by
  have h2 : pyRound (((1000 : ℤ) : ℚ) / ((64 : ℤ) : ℚ)) = 16 := by
    have h := pyRound_eval_up (q := ((1000 : ℤ) : ℚ) / ((64 : ℤ) : ℚ))
      (n := 15) (by push_cast; norm_num) (by push_cast; norm_num)
    rw [h]
    decide
  exact round_to_nearest_multiple_eval h2 (by decide)

lemma round_to_nearest_multiple_64_2000 :
    round_to_nearest_multiple 64 (((2000 : ℤ)) : ℚ) = 1984 := by
  have h2 : pyRound (((2000 : ℤ) : ℚ) / ((64 : ℤ) : ℚ)) = 31 :=
    pyRound_eval_down (by push_cast; norm_num) (by push_cast; norm_num)
  exact round_to_nearest_multiple_eval h2 (by decide)

lemma aspect_1984_1024 :
    calculate_image_aspect_ratio 2 (1984, 1024) = some (97 / 50) := by
  have harg : ((1984 : ℤ) : ℚ) / ((1024 : ℤ) : ℚ) * 10 ^ 2 = (775 / 4 : ℚ) := by
    push_cast
    norm_num
  have h2 : pyRound (775 / 4 : ℚ) = 194 := by
    have h := pyRound_eval_up (q := (775 / 4 : ℚ)) (n := 193) (by norm_num)
      (by norm_num)
    rw [h]
    decide
  rw [calculate_image_aspect_ratio, if_neg (by decide), pyRoundDec, harg, h2]
  norm_num

/-- Concrete run of the edge sizer: aspect ratio `2.0`, resolution `1000`,
original size `2000×1000`, alignment `64`.  The target is `1984×1024` but the
returned intermediary is `2024×1024`, and `2024` is not a multiple of `64`. -/
lemma edge_eval_2_1000 :
    calculate_new_size_by_pixel_edge 64 2 2 1000 (2000, 1000) =
      some ((1984, 1024), (2024, 1024), 97 / 50) := by
  have hpi : pyInt (((1000 : ℤ) : ℚ) * 2) = 2000 :=
    pyInt_eval (by push_cast; norm_num) (by push_cast; norm_num)
      (by push_cast; norm_num)
  have hI : edge_WH_initial 2 1000 (2000, 1000) = (2000, 1000) := by
    rw [edge_WH_initial, if_neg (by decide), hpi]
  have hF : edge_WH_final (2000, 1000) 1984 1024 = (2024, 1024) := by decide
  simp only [calculate_new_size_by_pixel_edge, hI,
    round_to_nearest_multiple_64_2000, round_to_nearest_multiple_64_1000,
    hF, aspect_1984_1024, if_neg (by norm_num :
      ¬((2000 : ℤ) < 1000 ∧ (2 : ℚ) = 0))]

/-- Concrete run of the area sizer, square special case: aspect ratio `1.0`,
`1.0` megapixels, original size `100×100`, alignment `64`: the target is
`1024×1024` while the intermediary is the unchanged original `100×100`. -/
lemma area_eval_square_100 :
    calculate_new_size_by_pixel_area 64 2 [] 1 1 (100, 100) =
      some (((1024, 1024), (100, 100), 1), []) := by
  rw [calculate_new_size_by_pixel_area, if_neg (by norm_num), if_pos rfl,
    area_target_pixel_edge_64_1]

lemma area_cache_step_4_1_empty :
    area_cache_step 64 [] 4 1 4 =
      (((2048, 512), (2048, 512), 4), [((1, 4), (2048, 512))]) := by
  simp only [area_cache_step, area_W_target_64_4_1, area_H_target_64_4_1,
    area_WH_intermediary_64_4_1, get_resolution_by_aspect_nil,
    Option.getD_none, Option.isSome_none, lt_self_iff_false, or_self,
    if_false, Bool.false_eq_true, set_resolution_by_aspect]

lemma get_resolution_hit :
    get_resolution_by_aspect [((1, 4), (2048, 512))] 1 4 = some (2048, 512) :=
  get_set_resolution_by_aspect [] 1 4 (2048, 512)

lemma area_cache_step_4_1_cached :
    area_cache_step 64 [((1, 4), (2048, 512))] 4 1 4 =
      (((2048, 512), (2048, 512), 4), [((1, 4), (2048, 512))]) := by
  simp only [area_cache_step, area_W_target_64_4_1, area_H_target_64_4_1,
    area_WH_intermediary_64_4_1, get_resolution_hit, Option.getD_some,
    Option.isSome_some, lt_self_iff_false, or_self, if_false, if_true]

/-- Concrete run of the area sizer on the empty cache: aspect ratio `4.0`,
`1.0` megapixels: target and intermediary are both `2048×512` and the cache
gains the entry for `(1.0, 4.0)`. -/
lemma area_eval_4_empty (original_size : ℤ × ℤ) :
    calculate_new_size_by_pixel_area 64 2 [] 4 1 original_size =
      some ((((2048, 512), (2048, 512), 4)), [((1, 4), (2048, 512))]) := by
  rw [calculate_new_size_by_pixel_area, if_neg (by norm_num),
    if_neg (by norm_num), if_neg (by norm_num), area_W_target_64_4_1,
    area_H_target_64_4_1, aspect_2048_512]
  show some (area_cache_step 64 [] 4 1 4) = _
  rw [area_cache_step_4_1_empty]

/-- Concrete run of the area sizer on the cache produced by
`area_eval_4_empty`: the cached target is returned and the cache is
unchanged. -/
lemma area_eval_4_cached (original_size : ℤ × ℤ) :
    calculate_new_size_by_pixel_area 64 2 [((1, 4), (2048, 512))] 4 1
        original_size =
      some ((((2048, 512), (2048, 512), 4)), [((1, 4), (2048, 512))]) := by
  rw [calculate_new_size_by_pixel_area, if_neg (by norm_num),
    if_neg (by norm_num), if_neg (by norm_num), area_W_target_64_4_1,
    area_H_target_64_4_1, aspect_2048_512]
  show some (area_cache_step 64 [((1, 4), (2048, 512))] 4 1 4) = _
  rw [area_cache_step_4_1_cached]

/-! ### Claim theorems -/

/-- C1 counterexample: through the square (`aspect_ratio == 1.0`) path of the
area sizer, an original size smaller than the computed square edge is
returned unchanged as the intermediary, so the intermediary (`100×100`) is
strictly smaller than the target (`1024×1024`) in both axes. -/
theorem sizer_invariant_counterexample :
    calculate_new_size_by_pixel_area 64 2 [] 1 1 (100, 100) =
      some (((1024, 1024), (100, 100), 1), []) ∧
    (100 : ℤ) < 1024 :=
  ⟨area_eval_square_100, by decide⟩

/-- C1 amended: every result of `calculate_new_size_by_pixel_edge` satisfies
`intermediary ≥ target` in both axes; every result of
`calculate_new_size_by_pixel_area` satisfies it provided `aspect_ratio ≠ 1.0`
and the resolution cache holds no entry for the megapixel target (the
square path copies the original size, and a cache hit can override the
target independently of the intermediary). -/
theorem sizer_intermediary_ge_target :
    (∀ (multiple : ℤ) (to_round : ℕ) (aspect_ratio : ℚ) (resolution : ℤ)
        (original_size : ℤ × ℤ) (t i : ℤ × ℤ) (ar : ℚ),
      calculate_new_size_by_pixel_edge multiple to_round aspect_ratio
          resolution original_size = some (t, i, ar) →
      t.1 ≤ i.1 ∧ t.2 ≤ i.2) ∧
    (∀ (multiple : ℤ) (to_round : ℕ) (cache : ResolutionCache)
        (aspect_ratio megapixels : ℚ) (original_size : ℤ × ℤ)
        (t i : ℤ × ℤ) (ar : ℚ) (cache' : ResolutionCache),
      aspect_ratio ≠ 1 →
      (∀ asp : ℚ, get_resolution_by_aspect cache megapixels asp = none) →
      calculate_new_size_by_pixel_area multiple to_round cache aspect_ratio
          megapixels original_size = some ((t, i, ar), cache') →
      t.1 ≤ i.1 ∧ t.2 ≤ i.2) := by
  constructor
  · intro multiple to_round aspect_ratio resolution original_size t i ar h
    simp only [calculate_new_size_by_pixel_edge] at h
    split_ifs at h with h0
    · rcases hA : calculate_image_aspect_ratio to_round
          (round_to_nearest_multiple multiple
            ((edge_WH_initial aspect_ratio resolution original_size).1 : ℚ),
           round_to_nearest_multiple multiple
            ((edge_WH_initial aspect_ratio resolution original_size).2 : ℚ))
        with _ | ar'
      · rw [hA] at h
        simp at h
      · rw [hA] at h
        simp only [Option.some.injEq, Prod.mk.injEq] at h
        obtain ⟨h1, h2, h3⟩ := h
        rw [← h1, ← h2]
        exact edge_WH_final_ge _ _ _
  · intro multiple to_round cache aspect_ratio megapixels original_size t i
      ar cache' ha hmiss h
    simp only [calculate_new_size_by_pixel_area] at h
    split_ifs at h with h0 h1
    rcases hA : calculate_image_aspect_ratio to_round
        (area_W_target multiple aspect_ratio megapixels,
         area_H_target multiple aspect_ratio megapixels) with _ | asp
    · rw [hA] at h
      simp at h
    · rw [hA] at h
      simp only [Option.some.injEq] at h
      push_neg at h1
      have hpos : 0 < aspect_ratio := lt_of_le_of_ne h1.1 (Ne.symm h1.2)
      have key := area_cache_step_miss_invariant multiple cache aspect_ratio
        megapixels asp hpos (hmiss asp)
      rw [h] at key
      simpa using key

/-- C1 witness: the amended theorem applied to the concrete edge run
(target `1984×1024`, intermediary `2024×1024`) and the concrete area run on
the empty cache (target and intermediary `2048×512`). -/
theorem sizer_intermediary_ge_target_witness :
    ((1984 : ℤ) ≤ 2024 ∧ (1024 : ℤ) ≤ 1024) ∧
    ((2048 : ℤ) ≤ 2048 ∧ (512 : ℤ) ≤ 512) :=
  ⟨by
    have h := sizer_intermediary_ge_target.1 64 2 2 1000 (2000, 1000)
      (1984, 1024) (2024, 1024) (97 / 50) edge_eval_2_1000
    simpa using h,
   by
    have h := sizer_intermediary_ge_target.2 64 2 [] 4 1 (800, 600)
      (2048, 512) (2048, 512) 4 [((1, 4), (2048, 512))] (by norm_num)
      (fun asp => rfl) (area_eval_4_empty (800, 600))
    simpa using h⟩

/-- C2: with `aspect_ratio == 1.0` and any nonnegative `megapixels` (a
negative value would make `math.sqrt` raise) the area sizer returns target
`(edge, edge)` with `edge = round_to_nearest_multiple(int(sqrt(megapixels *
1e6)))`, the original size unchanged as intermediary, final aspect ratio
`1.0`, and an untouched resolution cache. -/
theorem area_square_spec (multiple : ℤ) (to_round : ℕ)
    (cache : ResolutionCache) (megapixels : ℚ) (original_size : ℤ × ℤ)
    (hm : 0 ≤ megapixels) :
    calculate_new_size_by_pixel_area multiple to_round cache 1 megapixels
        original_size =
      some (((round_to_nearest_multiple multiple
                ((intSqrt (megapixels * 1000000) : ℤ) : ℚ),
              round_to_nearest_multiple multiple
                ((intSqrt (megapixels * 1000000) : ℤ) : ℚ)),
             original_size, 1), cache) := by
  rw [calculate_new_size_by_pixel_area, if_neg (not_lt.mpr hm), if_pos rfl,
    area_target_pixel_edge]

/-- C2 witness: with `megapixels = 1.0`, original size `123×456`, alignment `64`:
the square target is `1024×1024`, the intermediary is the original, the
ratio is `1.0` and the (empty) cache is unchanged. -/
theorem area_square_spec_witness :
    (0 : ℚ) ≤ 1 ∧
    calculate_new_size_by_pixel_area 64 2 [] 1 1 (123, 456) =
      some (((1024, 1024), (123, 456), 1), []) :=
  ⟨by norm_num, by
    rw [area_square_spec 64 2 [] 1 (123, 456) (by norm_num)]
    have h := area_target_pixel_edge_64_1
    rw [area_target_pixel_edge] at h
    rw [h]⟩

/-- C4: running the area sizer twice with the same `(megapixels,
aspect_ratio)` (`aspect_ratio ≠ 1.0`), the second run on the cache state
left by the first, yields the same target as the first run, for any two
original sizes and any starting cache. -/
theorem area_cache_idempotent (multiple : ℤ) (to_round : ℕ)
    (cache : ResolutionCache) (aspect_ratio megapixels : ℚ)
    (o1 o2 : ℤ × ℤ) (r1 r2 : (ℤ × ℤ) × (ℤ × ℤ) × ℚ)
    (cache1 cache2 : ResolutionCache) (ha : aspect_ratio ≠ 1)
    (h1 : calculate_new_size_by_pixel_area multiple to_round cache
        aspect_ratio megapixels o1 = some (r1, cache1))
    (h2 : calculate_new_size_by_pixel_area multiple to_round cache1
        aspect_ratio megapixels o2 = some (r2, cache2)) :
    r2.1 = r1.1 := by
  simp only [calculate_new_size_by_pixel_area] at h1 h2
  by_cases hm : megapixels < 0
  · rw [if_pos hm] at h1
    exact absurd h1 (by simp)
  · rw [if_neg hm] at h1 h2
    rw [if_neg ha] at h1 h2
    by_cases ha0 : aspect_ratio < 0 ∨ aspect_ratio = 0
    · rw [if_pos ha0] at h1
      exact absurd h1 (by simp)
    · rw [if_neg ha0] at h1 h2
      rcases hA : calculate_image_aspect_ratio to_round
          (area_W_target multiple aspect_ratio megapixels,
           area_H_target multiple aspect_ratio megapixels) with _ | asp
      · rw [hA] at h1
        simp at h1
      · rw [hA] at h1 h2
        simp only [Option.some.injEq] at h1 h2
        have e1 : (area_cache_step multiple cache aspect_ratio megapixels
            asp).1.1 = r1.1 := by rw [h1]
        have ec : (area_cache_step multiple cache aspect_ratio megapixels
            asp).2 = cache1 := by rw [h1]
        have e2 : (area_cache_step multiple cache1 aspect_ratio megapixels
            asp).1.1 = r2.1 := by rw [h2]
        calc r2.1
            = (area_cache_step multiple cache1 aspect_ratio megapixels
                asp).1.1 := e2.symm
          _ = (area_cache_step multiple
                (area_cache_step multiple cache aspect_ratio megapixels asp).2
                aspect_ratio megapixels asp).1.1 := by rw [ec]
          _ = (area_cache_step multiple cache aspect_ratio megapixels
                asp).1.1 := area_cache_step_idempotent _ _ _ _ _
          _ = r1.1 := e1

/-- C4 witness: first run on the empty cache with original `800×600`, second
run on the resulting cache with original `640×480`; both targets are
`2048×512`. -/
theorem area_cache_idempotent_witness : ((2048, 512) : ℤ × ℤ) = (2048, 512) :=
  area_cache_idempotent 64 2 [] 4 1 (800, 600) (640, 480)
    ((2048, 512), (2048, 512), 4) ((2048, 512), (2048, 512), 4)
    [((1, 4), (2048, 512))] [((1, 4), (2048, 512))] (by norm_num)
    (area_eval_4_empty (800, 600)) (area_eval_4_cached (640, 480))

/-- C9: for aspect ratios other than `1.0` the area sizer's result — target,
intermediary, final aspect ratio and updated cache — does not depend on the
original size at all. -/
theorem area_independent_of_original_size (multiple : ℤ) (to_round : ℕ)
    (cache : ResolutionCache) (aspect_ratio megapixels : ℚ)
    (o1 o2 : ℤ × ℤ) (ha : aspect_ratio ≠ 1) :
    calculate_new_size_by_pixel_area multiple to_round cache aspect_ratio
        megapixels o1 =
      calculate_new_size_by_pixel_area multiple to_round cache aspect_ratio
        megapixels o2 := by
  rw [calculate_new_size_by_pixel_area, calculate_new_size_by_pixel_area,
    if_neg ha, if_neg ha]

/-- C9 witness: two concrete runs with different original sizes agree. -/
theorem area_independent_of_original_size_witness :
    calculate_new_size_by_pixel_area 64 2 [] 4 1 (800, 600) =
      calculate_new_size_by_pixel_area 64 2 [] 4 1 (123, 45) :=
  area_independent_of_original_size 64 2 [] 4 1 (800, 600) (123, 45)
    (by norm_num)

/-- C3 counterexample: the intermediary emitted by the edge sizer need not be
a multiple of the alignment unit: with aspect ratio `2.0`, resolution `1000`,
original `2000×1000` and alignment `64`, the intermediary width is `2024`,
which `64` does not divide. -/
theorem sizer_alignment_counterexample :
    calculate_new_size_by_pixel_edge 64 2 2 1000 (2000, 1000) =
      some ((1984, 1024), (2024, 1024), 97 / 50) ∧
    ¬ (64 : ℤ) ∣ 2024 :=
  ⟨edge_eval_2_1000, by decide⟩

/-- C3 amended: both dimensions of every target size emitted by the sizers
are exact positive multiples of the alignment unit — for the area sizer
under the invariant that every cached size is itself so aligned (which the
sizer preserves, and which holds for every cache it builds up from empty);
intermediary sizes need not be aligned. -/
theorem sizer_targets_aligned (multiple : ℤ) (to_round : ℕ)
    (hu : 0 < multiple) :
    (∀ (aspect_ratio : ℚ) (resolution : ℤ) (original_size : ℤ × ℤ)
        (t i : ℤ × ℤ) (ar : ℚ),
      calculate_new_size_by_pixel_edge multiple to_round aspect_ratio
          resolution original_size = some (t, i, ar) →
      sizeAligned multiple t) ∧
    (∀ (cache : ResolutionCache) (aspect_ratio megapixels : ℚ)
        (original_size : ℤ × ℤ) (t i : ℤ × ℤ) (ar : ℚ)
        (cache' : ResolutionCache),
      cacheAligned multiple cache →
      calculate_new_size_by_pixel_area multiple to_round cache aspect_ratio
          megapixels original_size = some ((t, i, ar), cache') →
      sizeAligned multiple t ∧ cacheAligned multiple cache') := by
  constructor
  · intro aspect_ratio resolution original_size t i ar h
    simp only [calculate_new_size_by_pixel_edge] at h
    split_ifs at h with h0
    rcases hA : calculate_image_aspect_ratio to_round
        (round_to_nearest_multiple multiple
          ((edge_WH_initial aspect_ratio resolution original_size).1 : ℚ),
         round_to_nearest_multiple multiple
          ((edge_WH_initial aspect_ratio resolution original_size).2 : ℚ))
      with _ | ar'
    · rw [hA] at h
      simp at h
    · rw [hA] at h
      simp only [Option.some.injEq, Prod.mk.injEq] at h
      obtain ⟨h1, h2, h3⟩ := h
      rw [← h1]
      exact round_to_nearest_multiple_sizeAligned hu _ _
  · intro cache aspect_ratio megapixels original_size t i ar cache' hca h
    simp only [calculate_new_size_by_pixel_area] at h
    split_ifs at h with h0 h1 h2
    · -- square special case: target is (edge, edge), cache untouched
      simp only [Option.some.injEq, Prod.mk.injEq] at h
      obtain ⟨⟨ht, hi, har⟩, hc⟩ := h
      rw [← ht, ← hc]
      refine ⟨?_, hca⟩
      rw [area_target_pixel_edge]
      exact round_to_nearest_multiple_sizeAligned hu _ _
    · rcases hA : calculate_image_aspect_ratio to_round
          (area_W_target multiple aspect_ratio megapixels,
           area_H_target multiple aspect_ratio megapixels) with _ | asp
      · rw [hA] at h
        simp at h
      · rw [hA] at h
        simp only [Option.some.injEq] at h
        have key := area_cache_step_aligned multiple cache aspect_ratio
          megapixels asp hu hca
        rw [h] at key
        exact key

/-- C3 witness: the amended theorem applied to the concrete edge run
(target `1984×1024`) and the concrete area run on the empty cache (target
`2048×512`, resulting cache entry `2048×512`). -/
theorem sizer_targets_aligned_witness :
    (0 : ℤ) < 64 ∧
    sizeAligned 64 (1984, 1024) ∧
    (sizeAligned 64 (2048, 512) ∧
      cacheAligned 64 [((1, 4), (2048, 512))]) :=
  ⟨by decide,
   (sizer_targets_aligned 64 2 (by decide)).1 2 1000 (2000, 1000)
     (1984, 1024) (2024, 1024) (97 / 50) edge_eval_2_1000,
   (sizer_targets_aligned 64 2 (by decide)).2 [] 4 1 (800, 600)
     (2048, 512) (2048, 512) 4 [((1, 4), (2048, 512))]
     (fun e he => absurd he (List.not_mem_nil e))
     (area_eval_4_empty (800, 600))⟩

/-- C5: for every rational `v` and every positive alignment unit `u`,
`_round_to_nearest_multiple` returns `round(v/u)*u` clamped below at `u`;
its output is always a positive multiple of `u`, at least `u`, and is the
nearest positive multiple of `u` to `v` (ties resolved by Python's
round-half-to-even convention). -/
theorem round_to_nearest_multiple_spec (v : ℚ) (u : ℤ) (hu : 0 < u) :
    round_to_nearest_multiple u v = max (pyRound (v / (u : ℚ)) * u) u ∧
    u ∣ round_to_nearest_multiple u v ∧
    u ≤ round_to_nearest_multiple u v ∧
    0 < round_to_nearest_multiple u v ∧
    ∀ k : ℤ, 1 ≤ k →
      |v - (round_to_nearest_multiple u v : ℚ)| ≤ |v - ((k * u : ℤ) : ℚ)| := by
  have hle : u ≤ round_to_nearest_multiple u v :=
    le_round_to_nearest_multiple u v
  refine ⟨rfl, round_to_nearest_multiple_dvd u v, hle, lt_of_lt_of_le hu hle,
    ?_⟩
  intro k hk
  have hu' : (0 : ℚ) < (u : ℚ) := by exact_mod_cast hu
  have hmul : ∀ j : ℤ, |v - ((j * u : ℤ) : ℚ)| = (u : ℚ) * |v / (u : ℚ) - (j : ℚ)| := by
    intro j
    rw [show (u : ℚ) * |v / (u : ℚ) - (j : ℚ)| = |(u : ℚ)| * |v / (u : ℚ) - (j : ℚ)| by
          rw [abs_of_pos hu'],
        ← abs_mul]
    congr 1
    push_cast
    field_simp <;> ring
  set n := pyRound (v / (u : ℚ)) with hn
  rcases le_or_lt n 0 with hn0 | hn0
  · -- n ≤ 0: the clamp fires and the result is u itself
    have hr : round_to_nearest_multiple u v = u := by
      unfold round_to_nearest_multiple
      rw [← hn, max_eq_right]
      nlinarith
    rw [hr]
    have hq : v / (u : ℚ) ≤ 1 / 2 := pyRound_le_half_of_nonpos _ hn0
    have hv : v ≤ (u : ℚ) / 2 := by
      rw [div_le_div_iff hu' (by norm_num : (0 : ℚ) < 2)] at hq
      linarith
    have hku : (u : ℚ) ≤ ((k * u : ℤ) : ℚ) := by
      push_cast
      nlinarith [(by exact_mod_cast hk : (1 : ℚ) ≤ (k : ℚ))]
    have h1 : |v - (u : ℚ)| = (u : ℚ) - v := by
      rw [abs_sub_comm, abs_of_nonneg (by linarith)]
    have h2 : |v - ((k * u : ℤ) : ℚ)| = ((k * u : ℤ) : ℚ) - v := by
      rw [abs_sub_comm, abs_of_nonneg (by linarith)]
    rw [h1, h2]
    linarith
  · -- 1 ≤ n: the result is the nearest multiple n * u
    have hr : round_to_nearest_multiple u v = n * u := by
      unfold round_to_nearest_multiple
      rw [← hn, max_eq_left]
      nlinarith
    rw [hr, show (n * u : ℤ) = ((n * u : ℤ) : ℤ) from rfl, hmul n, hmul k]
    exact mul_le_mul_of_nonneg_left (pyRound_nearest (v / (u : ℚ)) k)
      (le_of_lt hu')

/-- C5 witness: instantiation at `v = 100`, `u = 64` (the rounder returns
`128`, the nearest positive multiple of `64` to `100`, closer than `2·64`). -/
theorem round_to_nearest_multiple_spec_witness :
    (0 : ℤ) < 64 ∧
    (64 : ℤ) ∣ round_to_nearest_multiple 64 100 ∧
    (64 : ℤ) ≤ round_to_nearest_multiple 64 100 ∧
    |(100 : ℚ) - (round_to_nearest_multiple 64 100 : ℚ)| ≤
      |(100 : ℚ) - ((2 * 64 : ℤ) : ℚ)| :=
  ⟨by decide, (round_to_nearest_multiple_spec 100 64 (by decide)).2.1,
    (round_to_nearest_multiple_spec 100 64 (by decide)).2.2.1,
    (round_to_nearest_multiple_spec 100 64 (by decide)).2.2.2.2 2 (by decide)⟩

/-- C7: function `is_image_too_large` with mode "pixel" is true iff either dimension
exceeds the limit; with mode "area" it is true iff `width*height >
limit*1e6`; any other mode fails; plus the three literal instances of the
claim. -/
theorem is_image_too_large_spec :
    (∀ (s : ℤ × ℤ) (r : ℚ),
      is_image_too_large s r "pixel" = some true ↔
        (r < (s.1 : ℚ) ∨ r < (s.2 : ℚ))) ∧
    (∀ (s : ℤ × ℤ) (r : ℚ),
      is_image_too_large s r "area" = some true ↔
        r * 1000000 < ((s.1 * s.2 : ℤ) : ℚ)) ∧
    (∀ (s : ℤ × ℤ) (r : ℚ) (mode : String),
      mode ≠ "pixel" → mode ≠ "area" → is_image_too_large s r mode = none) ∧
    is_image_too_large (5000, 3000) 1024 "pixel" = some true ∧
    is_image_too_large (5000, 3000) 20 "area" = some false ∧
    is_image_too_large (5000, 3000) 10 "area" = some true := by
  refine ⟨?_, ?_, ?_, by norm_num [is_image_too_large_pixel],
    by norm_num [is_image_too_large_area], by norm_num [is_image_too_large_area]⟩
  · intro s r
    rw [is_image_too_large_pixel]
    simp
  · intro s r
    rw [is_image_too_large_area]
    simp
  · intro s r mode h1 h2
    rw [is_image_too_large, if_neg h1, if_neg h2]

/-- C7 witness: the unsupported-mode branch at a concrete input. -/
theorem is_image_too_large_spec_witness :
    is_image_too_large (5000, 3000) 10 "megapixel" = none :=
  is_image_too_large_spec.2.2.1 (5000, 3000) 10 "megapixel" (by decide)
    (by decide)

/-- C8: function `adjust_resolution_to_bucket_interval` adds the width difference to
both dimensions when it is positive and at least the height difference, adds
the height difference to both when it is positive and strictly greater, and
otherwise returns the initial size unchanged; in particular
`adjust_resolution_to_bucket_interval((100,100),(150,120)) = (150,150)`. -/
theorem adjust_resolution_to_bucket_interval_spec :
    (∀ initial target : ℤ × ℤ,
      adjust_resolution_to_bucket_interval initial target =
        if 0 < target.1 - initial.1 ∧
            target.2 - initial.2 ≤ target.1 - initial.1 then
          (initial.1 + (target.1 - initial.1),
           initial.2 + (target.1 - initial.1))
        else if 0 < target.2 - initial.2 ∧
            target.1 - initial.1 < target.2 - initial.2 then
          (initial.1 + (target.2 - initial.2),
           initial.2 + (target.2 - initial.2))
        else (initial.1, initial.2)) ∧
    adjust_resolution_to_bucket_interval (100, 100) (150, 120) = (150, 150) := by
  refine ⟨?_, by decide⟩
  intro initial target
  simp only [adjust_resolution_to_bucket_interval]
  split_ifs with h1 h2 h3 h4 h5 h6 <;> first | rfl | omega

/-- C10: the output of `adjust_resolution_to_bucket_interval` is at least the
target in both axes, for all integer inputs. -/
theorem adjust_resolution_to_bucket_interval_invariant
    (initial target : ℤ × ℤ) :
    target.1 ≤ (adjust_resolution_to_bucket_interval initial target).1 ∧
    target.2 ≤ (adjust_resolution_to_bucket_interval initial target).2 := by
  simp only [adjust_resolution_to_bucket_interval]
  split_ifs with h1 h2 <;> constructor <;> simp <;> omega

/-- C6 counterexample: a size pair with a non-positive (negative) width is
accepted: `calculate_image_aspect_ratio` returns the value `-2.0` instead of
failing, refuting "fails whenever ... dimensions are non-positive". -/
theorem calculate_image_aspect_ratio_nonpositive_counterexample :
    calculate_image_aspect_ratio 2 (-100, 50) = some (-2) ∧
    (-100 : ℤ) ≤ 0 := by
  refine ⟨?_, by decide⟩
  have h1 : (((-100 : ℤ) : ℚ)) / ((50 : ℤ) : ℚ) * 10 ^ 2 = ((-200 : ℤ) : ℚ) := by
    push_cast
    norm_num
  have h2 : pyRound (-200 : ℚ) = -200 := by
    have h := pyRound_intCast (-200)
    push_cast at h
    exact h
  simp only [calculate_image_aspect_ratio, pyRoundDec]
  norm_num [h1, h2]

/-- C6 amended: function `calculate_image_aspect_ratio` on a size pair fails (raises
`ZeroDivisionError`) exactly when the height is zero; any nonzero height —
including negative heights and non-positive widths — returns a rounded
ratio. -/
theorem calculate_image_aspect_ratio_fails_iff (to_round : ℕ) (w h : ℤ) :
    calculate_image_aspect_ratio to_round (w, h) = none ↔ h = 0 := by
  simp [calculate_image_aspect_ratio]

end MultiaspectImage
